import Mathlib

/-!
# Verification of the S3 updator dashboard (src/s3_updator.py)

A shallow embedding of the core logic of `src/s3_updator.py`:

* Python string primitives (`str.find`, slicing, `strip`, `split`, `upper`,
  `startswith`) modelled over `List Char`;
* the rolodex hyperlink-split cell transforms `extract_link` / `extract_friendly`
  and their application to a tabular dataset (`insert` then column assignment);
* the contacts column rename;
* the encoding-fallback decode loops of the two upload branches;
* `backup_and_upload_bytes` (best-effort backup, then overwrite) over an
  association-list model of the bucket;
* `list_files_in_bucket` (paginated listing);
* the chat-tab message-append step;
* the metrics aggregation (modelled from the spec: the metrics tab in the
  source renders hardcoded mock values only).

Theorems settle the frozen claims C1–C10 about this program.
-/

set_option autoImplicit false

namespace S3Updator

/-! ## Python string primitives over `List Char` -/

/-- Index of the first occurrence of `ch` in a character list, if any.
Mirrors Python `str.find` (which returns `-1` when absent; see `pyFindL`). -/
def findIdxCh : List Char → Char → Option Nat
  | [], _ => none
  | c :: cs, ch => if c = ch then some 0 else (findIdxCh cs ch).map (· + 1)

/-- Python `t.find(ch)`: index of first occurrence, `-1` if absent. -/
def pyFindL (t : List Char) (ch : Char) : Int :=
  match findIdxCh t ch with
  | none => -1
  | some i => i

/-- Python `t.find(ch, start)`: first occurrence at index ≥ `start`, `-1` if absent. -/
def pyFindFromL (t : List Char) (ch : Char) (start : Nat) : Int :=
  match findIdxCh (t.drop start) ch with
  | none => -1
  | some i => i + start

/-- Python slice `t[a:b]` for `0 ≤ a, b`. -/
def sliceL (t : List Char) (a b : Nat) : List Char :=
  (t.drop a).take (b - a)

/-- Python `str.isspace`-style whitespace test for the characters `strip` removes. -/
def isPySpace (c : Char) : Bool :=
  c == ' ' || c == '\t' || c == '\n' || c == '\r' || c == '\x0b' || c == '\x0c'

/-- Python `t.strip()`: drop whitespace from both ends. -/
def stripL (t : List Char) : List Char :=
  ((t.dropWhile isPySpace).reverse.dropWhile isPySpace).reverse

/-- The part of `t` after the first occurrence of `sep`:
Python `t.split(sep, 1)[1]` (meaningful only when `sep ∈ t`). -/
def splitAfterFirstL (t : List Char) (sep : Char) : List Char :=
  (t.dropWhile (· ≠ sep)).drop 1

/-- Python `str.upper` restricted to ASCII letters (the only case the
`=HYPERLINK` check exercises). -/
def pyUpperChar (c : Char) : Char :=
  if 'a' ≤ c ∧ c ≤ 'z' then Char.ofNat (c.toNat - 32) else c

/-- Boolean list-prefix test (Python `str.startswith`). -/
def listStartsWith : List Char → List Char → Bool
  | [], _ => true
  | _ :: _, [] => false
  | a :: as, b :: bs => a = b && listStartsWith as bs

/-- Python `t.upper().startswith(pre)` for an ASCII `pre`. -/
def pyStartsWithUpper (pre : String) (t : List Char) : Bool :=
  listStartsWith pre.data (t.map pyUpperChar)

/-- Whether `pat` occurs as a contiguous substring of `s`. -/
def strContainsSub (s pat : String) : Bool :=
  (List.range (s.data.length + 1)).any (fun i => listStartsWith pat.data (s.data.drop i))

/-! ## Cells and tables

A pandas DataFrame cell is either a Python string or a non-string value
(e.g. a numeric or NaN cell); a DataFrame is an ordered list of named
columns, rows aligned positionally. -/

/-- One DataFrame cell: a Python string or a non-string value. -/
inductive Cell where
  | str (s : String)
  | na
  deriving DecidableEq, Repr

/-- A tabular dataset: ordered named columns, each a list of cells. -/
abbrev Table := List (String × List Cell)

/-! ## Rolodex hyperlink-split transforms (src/s3_updator.py lines 241–256) -/

/-- `extract_link` from the source: the text between the first pair of
double quotes anywhere in the cell (stripped), else the empty string;
non-strings map to the empty string.

    def extract_link(t):
        if not isinstance(t, str): return ""
        s = t.find('"') + 1; e = t.find('"', s)
        return t[s:e].strip() if s > 0 and e > 0 else ""
-/
def extract_link (t : Cell) : Cell :=
  match t with
  | .na => .str ""
  | .str str =>
    let cs := str.data
    let s : Int := pyFindL cs '"' + 1
    let e : Int := pyFindFromL cs '"' s.toNat
    if 0 < s ∧ 0 < e then .str (stripL (sliceL cs s.toNat e.toNat)).asString
    else .str ""

/-- `extract_friendly` from the source: for a cell whose upper-cased text
starts with `=HYPERLINK`, the quoted label after the first separator
(`;` if present, else `,`), stripped; any non-matching input is returned
unchanged.

    def extract_friendly(t):
        if not isinstance(t, str) or not t.upper().startswith('=HYPERLINK'): return t
        sep = ';' if ';' in t else ','
        if sep not in t: return t
        p = t.split(sep, 1)[1]; s = p.find('"') + 1; e = p.find('"', s)
        return p[s:e].strip() if s > 0 and e > 0 else t
-/
def extract_friendly (t : Cell) : Cell :=
  match t with
  | .na => t
  | .str str =>
    let cs := str.data
    if ¬ pyStartsWithUpper "=HYPERLINK" cs then t
    else
      let sep : Char := if cs.contains ';' then ';' else ','
      if ¬ cs.contains sep then t
      else
        let p := splitAfterFirstL cs sep
        let s : Int := pyFindL p '"' + 1
        let e : Int := pyFindFromL p '"' s.toNat
        if 0 < s ∧ 0 < e then .str (stripL (sliceL p s.toNat e.toNat)).asString
        else t

/-- `df.insert(pos, name, values)`: insert a column at position `pos`. -/
def insertColAt (pos : Nat) (c : String × List Cell) (t : Table) : Table :=
  t.take pos ++ c :: t.drop pos

/-- `df[name] = values`: assign `values` to every column labelled `name`. -/
def setColByName (name : String) (vals : List Cell) : Table → Table
  | [] => []
  | (m, cs) :: rest =>
    (m, if m = name then vals else cs) :: setColByName name vals rest

/-- The rolodex transform of the upload tab (lines 240–256): with
`first_col = df.columns[0]`, insert `df[first_col].apply(extract_link)` as
"Documentation Link" at position 1, then assign
`df[first_col].apply(extract_friendly)` to the first column's label. -/
def rolodexTransform (t : Table) : Table :=
  match t with
  | [] => []
  | (first_col, cs) :: rest =>
    let t1 := insertColAt 1 ("Documentation Link", cs.map extract_link)
      ((first_col, cs) :: rest)
    setColByName first_col (cs.map extract_friendly) t1

/-- Independent reading of the link extraction (used by the amended claim C4):
the text between the first pair of double quotes in `t`, stripped; empty
when `t` has no quote or no second quote. -/
def firstQuoted (t : List Char) : List Char :=
  let after := (t.dropWhile (· != '"')).drop 1
  if t.contains '"' && after.contains '"' then stripL (after.takeWhile (· != '"'))
  else []

/-! ## Contacts rename (line 216)

`df.rename(columns={"Account Name": "Partner", "Account Owner": "Partner
Manager"})` relabels each column through the mapping; labels not in the
mapping are unchanged, absent keys are silently skipped. -/

/-- The column-label mapping of the contacts rename. -/
def renameColName (n : String) : String :=
  if n = "Account Name" then "Partner"
  else if n = "Account Owner" then "Partner Manager"
  else n

/-- The contacts rename transform: relabel every column, keep all cells. -/
def renameContacts (t : Table) : Table :=
  t.map (fun c => (renameColName c.1, c.2))

/-! ## Encoding-fallback decode loops (lines 207–215 and 231–239)

The loops iterate candidate encodings; a `UnicodeDecodeError` moves to the
next candidate (the rolodex loop also catches `pandas.errors.ParserError`);
any other exception propagates.  If no candidate succeeds the code raises
`ValueError` with a fixed message. -/

/-- Outcome of one `pd.read_csv` attempt with a given encoding. -/
inductive ReadOutcome where
  | ok (t : Table)
  | unicodeDecodeError
  | parserError
  | otherError (e : String)
  deriving DecidableEq, Repr

/-- A Python failure escaping the decode loop. -/
inductive PyFailure where
  | valueError (msg : String)
  | uncaught (e : String)
  deriving DecidableEq, Repr

/-- Candidate encodings of the comma-delimited contacts branch (line 207). -/
def contacts_encodings : List String := ["utf-8", "latin-1", "iso-8859-1", "cp1252"]

/-- Candidate encodings of the tab-delimited rolodex branch (line 231). -/
def rolodex_encodings : List String := ["utf-16", "utf-8", "latin-1"]

/-- The fallback loop shared by both branches: try candidates in order,
continue on a caught failure, propagate any other error, and raise
`ValueError failMsg` when every candidate fails. -/
def decodeLoop (catchParserError : Bool) (failMsg : String)
    (attempt : String → ReadOutcome) : List String → Except PyFailure Table
  | [] => .error (.valueError failMsg)
  | enc :: rest =>
    match attempt enc with
    | .ok t => .ok t
    | .unicodeDecodeError => decodeLoop catchParserError failMsg attempt rest
    | .parserError =>
      if catchParserError then decodeLoop catchParserError failMsg attempt rest
      else .error (.uncaught "ParserError")
    | .otherError e => .error (.uncaught e)

/-- The contacts decode loop: comma profile, only `UnicodeDecodeError` caught. -/
def contactsDecode (attempt : String → ReadOutcome) : Except PyFailure Table :=
  decodeLoop false "Could not decode contacts file." attempt contacts_encodings

/-- The rolodex decode loop: tab profile, `UnicodeDecodeError` and
`ParserError` caught. -/
def rolodexDecode (attempt : String → ReadOutcome) : Except PyFailure Table :=
  decodeLoop true "Could not decode or parse Rolodex file." attempt rolodex_encodings

/-- Whether the failure of one candidate is caught by the loop (so that the
next candidate is tried). -/
def caughtBy (catchParserError : Bool) (o : ReadOutcome) : Prop :=
  o = .unicodeDecodeError ∨ (catchParserError = true ∧ o = .parserError)

/-! ## Safe publish pipeline: `backup_and_upload_bytes` (lines 126–140)

The bucket is an association list from keys to byte contents.  The
outcomes of the two remote calls (`copy_object`, `put_object`) are inputs:
`copy_object` failures surface as `ClientError` with a response code and
are caught; the final `put_object` failure propagates. -/

/-- Object contents as a byte sequence. -/
abbrev Bytes := List Nat

/-- The bucket: an association list from keys to contents. -/
abbrev S3State := List (String × Bytes)

/-- Look up a key's contents in the bucket. -/
def lookupKey : S3State → String → Option Bytes
  | [], _ => none
  | (k, v) :: rest, key => if k = key then some v else lookupKey rest key

/-- Write contents under a key (overwrite or create). -/
def setKey (key : String) (v : Bytes) : S3State → S3State
  | [] => [(key, v)]
  | (k, w) :: rest =>
    if k = key then (key, v) :: rest else (k, w) :: setKey key v rest

/-- Python `os.path.basename` for path-like keys. -/
def pyBasename (k : String) : String :=
  (k.splitOn "/").getLastD ""

/-- Outcome of the `copy_object` backup call: success, or a `ClientError`
with its response error code (`"404"` means the source does not exist). -/
inductive CopyResult where
  | ok
  | clientError (code : String)

/-- Outcome of the final `put_object` call. -/
inductive PutResult where
  | ok
  | failed (e : String)

/-- Result of one publish: the value returned to the caller (or the
propagated exception), the bucket afterwards, and the warnings shown. -/
structure PublishOutcome where
  result : Except String Unit
  store : S3State
  warnings : List String
  deriving Repr

/-- `backup_and_upload_bytes` from the source: compute the backup key, copy
the existing destination object to it (a `ClientError` is caught: code 404
warns that no backup was made, any other code warns that the backup
failed), then put the new bytes at the destination with content type
`text/csv`; a put failure propagates to the caller. -/
def backup_and_upload_bytes (data_bytes : Bytes) (s3_key ts : String)
    (copyRes : CopyResult) (putRes : PutResult) (store : S3State) :
    PublishOutcome :=
  let backup_key := "backups/" ++ pyBasename s3_key ++ "_" ++ ts ++ ".csv"
  let step1 : S3State × List String :=
    match copyRes with
    | .ok =>
      (match lookupKey store s3_key with
       | some v => setKey backup_key v store
       | none => store, [])
    | .clientError code =>
      (store,
       if code = "404" then
         ["No existing file for '" ++ s3_key ++ "'. A backup was not created."]
       else
         ["Could not create backup for '" ++ s3_key ++ "'."])
  match putRes with
  | .ok => ⟨.ok (), setKey s3_key data_bytes step1.1, step1.2⟩
  | .failed e => ⟨.error e, step1.1, step1.2⟩

/-! ## Object catalog: `list_files_in_bucket` (lines 142–156) -/

/-- One page of `list_objects_v2` results: the keys under `"Contents"`,
or `none` when the page has no `"Contents"` entry. -/
abbrev Page := Option (List String)

/-- Outcome of paginating the bucket: all pages, or an exception after
some delivered pages. -/
inductive PaginateResult where
  | ok (pages : List Page)
  | err (delivered : List Page) (e : String)

/-- What `list_files_in_bucket` produces: the returned value (`none`
models Python `None`) and the error message shown, if any. -/
structure ListOutcome where
  result : Option (List String)
  errorMsg : Option String
  deriving DecidableEq, Repr

/-- The accumulation loop of `list_files_in_bucket`: append every key of
every page that has a `"Contents"` entry. -/
def listLoop (files : List String) : List Page → List String
  | [] => files
  | none :: rest => listLoop files rest
  | some objs :: rest => listLoop (files ++ objs) rest

/-- `list_files_in_bucket` from the source: accumulate all pages' keys and
return them; on an exception, show an error message wrapping it and
return `None`. -/
def list_files_in_bucket : PaginateResult → ListOutcome
  | .ok pages => ⟨some (listLoop [] pages), none⟩
  | .err _ e =>
    ⟨none, some ("Could not list files in bucket. Check IAM permissions. Error: " ++ e)⟩

/-! ## Chat tab message-append step (lines 405–425) -/

/-- One chat message. -/
structure Message where
  role : String
  content : String
  deriving DecidableEq, Repr

/-- Outcome of `invoke_agent` plus the stream iteration: a complete chunk
list, or an error after some chunks were already received (also covering
the request failing before any chunk). -/
inductive InvokeOutcome where
  | ok (chunks : List String)
  | errAt (chunksBefore : List String) (e : String)

/-- One chat-tab turn on the session message history: append the user
message; if the Bedrock client is `None`, only show an error; otherwise
append one assistant message holding the concatenated chunks on success
or the error description on failure. -/
def chatStep (history : List Message) (prompt : String)
    (client : Option InvokeOutcome) : List Message :=
  let h1 := history ++ [⟨"user", prompt⟩]
  match client with
  | none => h1
  | some (.ok chunks) => h1 ++ [⟨"assistant", String.join chunks⟩]
  | some (.errAt _ e) => h1 ++ [⟨"assistant", "An error occurred: " ++ e⟩]

/-! ## Metrics aggregation -/

/-- Modelled from the spec: one agent-invocation record of the metrics
domain (spec §3 AgentEvent).  The metrics tab in `src/s3_updator.py`
(lines 428–453) renders hardcoded mock values only; the aggregate
operation itself is absent from the source, so it is modelled from
spec §4.6. -/
structure AgentEvent where
  timestamp : Int
  input_tokens : Nat
  output_tokens : Nat
  latency_ms : ℚ
  feedback : Option Bool
  deriving DecidableEq, Repr

/-- Modelled from the spec: the rollup produced by the aggregate
operation (spec §4.6). -/
structure MetricsSummary where
  total_queries : Nat
  avg_latency_seconds : ℚ
  positive_feedback_rate : ℚ
  total_tokens : Nat
  total_cost : ℚ
  avg_cost_per_query : ℚ
  deriving DecidableEq, Repr

/-- Modelled from the spec: `aggregate(events, window_end, window)` of
spec §4.6, absent from the source.  Events in the window are those with
timestamp ≥ window_end − window; every division by zero resolves to 0. -/
def aggregate (events : List AgentEvent) (window_end window : Int) :
    MetricsSummary :=
  let evs := events.filter (fun e => window_end - window ≤ e.timestamp)
  let n := evs.length
  let latSum : ℚ := (evs.map (·.latency_ms)).sum
  let fb := evs.filterMap (·.feedback)
  let pos := (fb.filter id).length
  let inTok : Nat := (evs.map (·.input_tokens)).sum
  let outTok : Nat := (evs.map (·.output_tokens)).sum
  let cost : ℚ := (inTok : ℚ) / 1000000 * 0.25 + (outTok : ℚ) / 1000000 * 1.25
  { total_queries := n
    avg_latency_seconds := if n = 0 then 0 else latSum / n / 1000
    positive_feedback_rate :=
      if fb.length = 0 then 0 else (pos : ℚ) / fb.length * 100
    total_tokens := inTok + outTok
    total_cost := cost
    avg_cost_per_query := if n = 0 then 0 else cost / n }

/-! ## Supporting lemmas -/

theorem findIdxCh_none {t : List Char} {ch : Char} (h : findIdxCh t ch = none) :
    ch ∉ t := by
  induction t with
  | nil => simp
  | cons c cs ih =>
    by_cases hc : c = ch
    · simp [findIdxCh, hc] at h
    · rw [findIdxCh, if_neg hc, Option.map_eq_none'] at h
      simp only [List.mem_cons, not_or]
      exact ⟨fun h' => hc h'.symm, ih h⟩

theorem findIdxCh_contains {t : List Char} {ch : Char} {i : Nat}
    (h : findIdxCh t ch = some i) : ch ∈ t := by
  induction t generalizing i with
  | nil => simp [findIdxCh] at h
  | cons c cs ih =>
    by_cases hc : c = ch
    · subst hc
      exact List.mem_cons_self c cs
    · rw [findIdxCh, if_neg hc, Option.map_eq_some'] at h
      obtain ⟨j, hj, -⟩ := h
      exact List.mem_cons_of_mem _ (ih hj)

theorem dropWhile_findIdxCh {t : List Char} {ch : Char} {i : Nat}
    (h : findIdxCh t ch = some i) : t.dropWhile (· != ch) = t.drop i := by
  induction t generalizing i with
  | nil => simp [findIdxCh] at h
  | cons c cs ih =>
    by_cases hc : c = ch
    · rw [findIdxCh, if_pos hc] at h
      cases h
      simp [List.dropWhile_cons, hc]
    · rw [findIdxCh, if_neg hc, Option.map_eq_some'] at h
      obtain ⟨j, hj, rfl⟩ := h
      simp [List.dropWhile_cons, hc, ih hj]

theorem takeWhile_findIdxCh {t : List Char} {ch : Char} {i : Nat}
    (h : findIdxCh t ch = some i) : t.takeWhile (· != ch) = t.take i := by
  induction t generalizing i with
  | nil => simp [findIdxCh] at h
  | cons c cs ih =>
    by_cases hc : c = ch
    · rw [findIdxCh, if_pos hc] at h
      cases h
      simp [List.takeWhile_cons, hc]
    · rw [findIdxCh, if_neg hc, Option.map_eq_some'] at h
      obtain ⟨j, hj, rfl⟩ := h
      simp [List.takeWhile_cons, hc, ih hj]

/-- The source's `extract_link` computes exactly the first-quoted-substring
reading: for every string cell, the result is `firstQuoted` of its text. -/
theorem extract_link_eq_firstQuoted (s : String) :
    extract_link (.str s) = .str (firstQuoted s.data).asString := by
  rcases h1 : findIdxCh s.data '"' with - | i
  · have hc := findIdxCh_none h1
    simp [extract_link, pyFindL, firstQuoted, h1, hc]
    rfl
  · have hd := dropWhile_findIdxCh h1
    have hc := findIdxCh_contains h1
    have hnat : ((i : Int) + 1).toNat = i + 1 := by omega
    have hdrop : (List.dropWhile (fun x => x != '"') s.data).tail
        = s.data.drop (i + 1) := by
      rw [hd, List.tail_drop]
    rcases h2 : findIdxCh (s.data.drop (i + 1)) '"' with - | j
    · have hc2 := findIdxCh_none h2
      have he : pyFindFromL s.data '"' (i + 1) = -1 := by
        simp [pyFindFromL, h2]
      simp [extract_link, pyFindL, firstQuoted, h1, hnat, he, hdrop, hc, hc2]
      rfl
    · have hc2 := findIdxCh_contains h2
      have ht := takeWhile_findIdxCh h2
      have he : pyFindFromL s.data '"' (i + 1) = (j : Int) + (i + 1) := by
        simp [pyFindFromL, h2]
      have hpos : (0 : Int) < (i : Int) + 1 ∧ (0 : Int) < (j : Int) + (i + 1) := by
        constructor <;> omega
      have hnat2 : ((j : Int) + (i + 1)).toNat - (i + 1) = j := by omega
      simp [extract_link, pyFindL, firstQuoted, h1, hnat, he, hpos, hdrop,
        hc, hc2, sliceL, hnat2, ht]

theorem setColByName_of_not_mem {name : String} {vals : List Cell} {t : Table}
    (h : ∀ c ∈ t, c.1 ≠ name) : setColByName name vals t = t := by
  induction t with
  | nil => rfl
  | cons c rest ih =>
    obtain ⟨m, cs⟩ := c
    have hm : m ≠ name := h (m, cs) (List.mem_cons_self _ _)
    simp only [setColByName, if_neg hm]
    rw [ih (fun c hc => h c (List.mem_cons_of_mem _ hc))]

theorem rolodexTransform_shape (first_col : String) (cs : List Cell)
    (rest : Table) (hfr : ∀ c ∈ rest, c.1 ≠ first_col)
    (hdl : first_col ≠ "Documentation Link") :
    rolodexTransform ((first_col, cs) :: rest)
      = (first_col, cs.map extract_friendly)
        :: ("Documentation Link", cs.map extract_link) :: rest := by
  have hdl' : "Documentation Link" ≠ first_col := fun h => hdl h.symm
  simp only [rolodexTransform, insertColAt, List.take_cons, List.take_zero,
    List.drop_succ_cons, List.drop_zero, List.nil_append, List.cons_append,
    setColByName, if_neg hdl', if_true]
  rw [setColByName_of_not_mem hfr]

theorem lookupKey_setKey_self (st : S3State) (k : String) (v : Bytes) :
    lookupKey (setKey k v st) k = some v := by
  induction st with
  | nil => simp [setKey, lookupKey]
  | cons kv rest ih =>
    obtain ⟨k', w⟩ := kv
    by_cases h : k' = k
    · simp [setKey, h, lookupKey]
    · simp [setKey, h, lookupKey, ih]

theorem lookupKey_setKey_ne (st : S3State) (k k' : String) (v : Bytes)
    (h : k ≠ k') : lookupKey (setKey k v st) k' = lookupKey st k' := by
  induction st with
  | nil => simp [setKey, lookupKey, h]
  | cons kv rest ih =>
    obtain ⟨k'', w⟩ := kv
    by_cases h2 : k'' = k
    · subst h2
      simp [setKey, lookupKey, h]
    · simp [setKey, h2, lookupKey, ih]

theorem listLoop_append (files : List String) (pages : List Page) :
    listLoop files pages = files ++ listLoop [] pages := by
  induction pages generalizing files with
  | nil => simp [listLoop]
  | cons p rest ih =>
    cases p with
    | none => simp only [listLoop]; exact ih files
    | some objs =>
      simp only [listLoop, List.nil_append]
      rw [ih (files ++ objs), ih objs, List.append_assoc]

theorem listLoop_flatten (pages : List Page) :
    listLoop [] pages = (pages.map (fun p => p.getD [])).flatten := by
  induction pages with
  | nil => rfl
  | cons p rest ih =>
    cases p with
    | none => simpa [listLoop] using ih
    | some objs =>
      simp only [listLoop, List.nil_append, List.map_cons, List.flatten_cons]
      rw [listLoop_append, ih]
      rfl

theorem renameColName_idem (n : String) :
    renameColName (renameColName n) = renameColName n := by
  by_cases h1 : n = "Account Name"
  · subst h1
    decide
  · by_cases h2 : n = "Account Owner"
    · subst h2
      decide
    · simp [renameColName, h1, h2]

theorem decodeLoop_all_caught (catchP : Bool) (msg : String)
    (attempt : String → ReadOutcome) (l : List String)
    (h : ∀ enc ∈ l, caughtBy catchP (attempt enc)) :
    decodeLoop catchP msg attempt l = .error (.valueError msg) := by
  induction l with
  | nil => rfl
  | cons enc rest ih =>
    have htail := ih (fun e he => h e (List.mem_cons_of_mem _ he))
    rcases h enc (List.mem_cons_self _ _) with hu | ⟨hcp, hp⟩
    · rw [decodeLoop, hu]
      exact htail
    · rw [decodeLoop, hp, if_pos hcp]
      exact htail

theorem decodeLoop_first_success (catchP : Bool) (msg : String)
    (attempt : String → ReadOutcome) (l1 : List String) (enc : String)
    (l2 : List String) (t : Table)
    (h1 : ∀ e ∈ l1, caughtBy catchP (attempt e)) (h2 : attempt enc = .ok t) :
    decodeLoop catchP msg attempt (l1 ++ enc :: l2) = .ok t := by
  induction l1 with
  | nil =>
    rw [List.nil_append, decodeLoop, h2]
  | cons e es ih =>
    have htail := ih (fun x hx => h1 x (List.mem_cons_of_mem _ hx))
    rcases h1 e (List.mem_cons_self _ _) with hu | ⟨hcp, hp⟩
    · rw [List.cons_append, decodeLoop, hu]
      exact htail
    · rw [List.cons_append, decodeLoop, hp, if_pos hcp]
      exact htail

theorem filter_eq_nil_of_none {α : Type} (p : α → Bool) (l : List α)
    (h : ∀ a ∈ l, p a = false) : l.filter p = [] := by
  induction l with
  | nil => rfl
  | cons a rest ih =>
    rw [List.filter_cons, h a (List.mem_cons_self _ _)]
    exact ih (fun x hx => h x (List.mem_cons_of_mem _ hx))

/-! ## Claims -/

/-- C7: the contact-rename transform is idempotent: applying the rename of
"Account Name" to "Partner" and "Account Owner" to "Partner Manager" twice
yields the same dataset as applying it once (absent columns are skipped by
the total label mapping rather than raising an error). -/
theorem C7_contact_rename_idempotent (t : Table) :
    renameContacts (renameContacts t) = renameContacts t := by
  induction t with
  | nil => rfl
  | cons c rest ih =>
    simp only [renameContacts] at ih ⊢
    simp only [List.map_cons]
    rw [renameColName_idem, ih]

/-- C9: when a prompt is submitted while the Bedrock client is unavailable,
the relay appends the user message but no assistant message, so the history
can end with an unanswered user message; in every case the user message is
appended (before the agent is invoked). -/
theorem C9_client_unavailable (h : List Message) (p : String) :
    chatStep h p none = h ++ [⟨"user", p⟩]
    ∧ ((chatStep h p none).filter (fun m => m.role == "assistant")).length
        = (h.filter (fun m => m.role == "assistant")).length
    ∧ ∀ client, ∃ tail, chatStep h p client = h ++ ⟨"user", p⟩ :: tail := by
  refine ⟨rfl, ?_, ?_⟩
  · simp [chatStep, List.filter_append]
  · intro client
    rcases client with - | outcome
    · exact ⟨[], rfl⟩
    · rcases outcome with chunks | ⟨pre, e⟩
      · exact ⟨[⟨"assistant", String.join chunks⟩], by simp [chatStep]⟩
      · exact ⟨[⟨"assistant", "An error occurred: " ++ e⟩], by simp [chatStep]⟩

/-- C5 counterexample: with the Bedrock client unavailable (`None`), a
submitted prompt leaves the history with the user message and zero new
assistant messages, so it is not true that exactly one assistant message
is appended per prompt in every failure mode. -/
theorem C5_counterexample :
    chatStep [] "hi" none = [⟨"user", "hi"⟩]
    ∧ ((chatStep [] "hi" none).filter (fun m => m.role == "assistant")).length = 0 := by
  constructor
  · rfl
  · decide

/-- C5 (amended): when the Bedrock client is available, exactly one
assistant message is appended per prompt: the concatenation of the reply
chunks in arrival order on success, or the error-description string on a
request or stream failure; when the client is unavailable, the user
message is appended but no assistant message is. -/
theorem C5_one_assistant_message (h : List Message) (p : String)
    (chunks pre : List String) (e : String) :
    chatStep h p (some (.ok chunks))
      = h ++ [⟨"user", p⟩, ⟨"assistant", String.join chunks⟩]
    ∧ chatStep h p (some (.errAt pre e))
      = h ++ [⟨"user", p⟩, ⟨"assistant", "An error occurred: " ++ e⟩]
    ∧ chatStep h p none = h ++ [⟨"user", p⟩] := by
  refine ⟨?_, ?_, rfl⟩ <;> simp [chatStep]

/-- C8: the listing operation accumulates every key of every delivered
page (pages without a `Contents` entry contribute nothing) into one
ordered sequence and returns the complete list; on an underlying access
failure it returns `None` and reports an error message wrapping the
underlying failure. -/
theorem C8_catalog_listing (pages delivered : List Page) (e : String) :
    (list_files_in_bucket (.ok pages)).result
      = some ((pages.map (fun p => p.getD [])).flatten)
    ∧ (list_files_in_bucket (.ok pages)).errorMsg = none
    ∧ (list_files_in_bucket (.err delivered e)).result = none
    ∧ ∃ wrapper, (list_files_in_bucket (.err delivered e)).errorMsg
        = some (wrapper ++ e) := by
  refine ⟨?_, rfl, rfl, ⟨"Could not list files in bucket. Check IAM permissions. Error: ", rfl⟩⟩
  simp only [list_files_in_bucket, listLoop_flatten]

/-- C6: the metrics aggregate on a window containing zero events returns
avg_latency_seconds = 0, positive_feedback_rate = 0 and
avg_cost_per_query = 0; all divisions are total on ℚ, so no error or NaN
reaches the caller.  (The aggregate is modelled from the spec; the source
metrics tab renders hardcoded mock values only.) -/
theorem C6_metrics_zero_events (events : List AgentEvent)
    (window_end window : Int)
    (h : ∀ ev ∈ events, ¬ (window_end - window ≤ ev.timestamp)) :
    (aggregate events window_end window).total_queries = 0
    ∧ (aggregate events window_end window).avg_latency_seconds = 0
    ∧ (aggregate events window_end window).positive_feedback_rate = 0
    ∧ (aggregate events window_end window).avg_cost_per_query = 0 := by
  have hf : events.filter (fun ev => window_end - window ≤ ev.timestamp) = [] :=
    filter_eq_nil_of_none _ _ (fun a ha => by
      simpa using h a ha)
  unfold aggregate
  rw [hf]
  simp

/-- C6 witness: the empty event log over a 7-day window. -/
theorem C6_metrics_zero_events_witness :
    (aggregate [] 0 7).total_queries = 0
    ∧ (aggregate [] 0 7).avg_latency_seconds = 0
    ∧ (aggregate [] 0 7).positive_feedback_rate = 0
    ∧ (aggregate [] 0 7).avg_cost_per_query = 0 :=
  C6_metrics_zero_events [] 0 7 (by simp)

/-- C1: the final overwrite runs no matter how the backup copy ended (copy
success, not-found `ClientError` 404, or any other `ClientError`): the
caller's result depends only on the put outcome, the destination ends up
holding exactly the new bytes when the put succeeds, and a put failure
propagates to the caller, leaving the destination as it was. -/
theorem C1_put_runs_regardless_of_copy (data : Bytes) (key ts : String)
    (copyRes : CopyResult) (putRes : PutResult) (store : S3State) :
    (backup_and_upload_bytes data key ts copyRes putRes store).result
      = (match putRes with
         | .ok => Except.ok ()
         | .failed e => Except.error e)
    ∧ lookupKey (backup_and_upload_bytes data key ts copyRes putRes store).store key
      = (match putRes with
         | .ok => some data
         | .failed _ => lookupKey store key) := by
  cases putRes with
  | ok =>
    refine ⟨?_, ?_⟩
    · cases copyRes <;> rfl
    · cases copyRes with
      | ok =>
        cases hl : lookupKey store key with
        | none =>
          simp only [backup_and_upload_bytes, hl]
          exact lookupKey_setKey_self _ _ _
        | some v =>
          simp only [backup_and_upload_bytes, hl]
          exact lookupKey_setKey_self _ _ _
      | clientError code =>
        simp only [backup_and_upload_bytes]
        exact lookupKey_setKey_self _ _ _
  | failed e =>
    refine ⟨?_, ?_⟩
    · cases copyRes <;> rfl
    · cases copyRes with
      | ok =>
        cases hl : lookupKey store key with
        | none =>
          simp only [backup_and_upload_bytes, hl]
        | some v =>
          simp only [backup_and_upload_bytes, hl]
          by_cases hbk : ("backups/" ++ pyBasename key ++ "_" ++ ts ++ ".csv") = key
          · rw [hbk, lookupKey_setKey_self]
          · rw [lookupKey_setKey_ne _ _ _ _ hbk]
            exact hl
      | clientError code =>
        simp only [backup_and_upload_bytes]

/-- C2 counterexample: when every candidate in a profile fails, the loop
raises `ValueError` with a fixed message; the error does not carry the
attempted candidate list — no candidate name even occurs in the message. -/
theorem C2_counterexample :
    contactsDecode (fun _ => .unicodeDecodeError)
      = .error (.valueError "Could not decode contacts file.")
    ∧ rolodexDecode (fun _ => .parserError)
      = .error (.valueError "Could not decode or parse Rolodex file.")
    ∧ strContainsSub "Could not decode contacts file." "utf-8" = false
    ∧ strContainsSub "Could not decode contacts file." "latin-1" = false
    ∧ strContainsSub "Could not decode contacts file." "iso-8859-1" = false
    ∧ strContainsSub "Could not decode contacts file." "cp1252" = false
    ∧ strContainsSub "Could not decode or parse Rolodex file." "utf-16" = false
    ∧ strContainsSub "Could not decode or parse Rolodex file." "utf-8" = false
    ∧ strContainsSub "Could not decode or parse Rolodex file." "latin-1" = false := by
  refine ⟨rfl, rfl, ?_, ?_, ?_, ?_, ?_, ?_, ?_⟩ <;> decide

/-- C2 (amended): each profile attempts its candidates in order and returns
the first successful parse — comma profile `utf-8, latin-1, iso-8859-1,
cp1252` catching only decode failures, tab profile `utf-16, utf-8, latin-1`
catching decode and parse failures; when every candidate fails, the
operation fails with a `ValueError` carrying a fixed message that does not
include the attempted candidate list. -/
theorem C2_decode_fallback (attempt : String → ReadOutcome) :
    contacts_encodings = ["utf-8", "latin-1", "iso-8859-1", "cp1252"]
    ∧ rolodex_encodings = ["utf-16", "utf-8", "latin-1"]
    ∧ (∀ l1 enc l2 t, contacts_encodings = l1 ++ enc :: l2 →
        (∀ e ∈ l1, caughtBy false (attempt e)) → attempt enc = .ok t →
        contactsDecode attempt = .ok t)
    ∧ (∀ l1 enc l2 t, rolodex_encodings = l1 ++ enc :: l2 →
        (∀ e ∈ l1, caughtBy true (attempt e)) → attempt enc = .ok t →
        rolodexDecode attempt = .ok t)
    ∧ ((∀ e ∈ contacts_encodings, caughtBy false (attempt e)) →
        contactsDecode attempt
          = .error (.valueError "Could not decode contacts file."))
    ∧ ((∀ e ∈ rolodex_encodings, caughtBy true (attempt e)) →
        rolodexDecode attempt
          = .error (.valueError "Could not decode or parse Rolodex file.")) := by
  refine ⟨rfl, rfl, ?_, ?_, ?_, ?_⟩
  · intro l1 enc l2 t hsplit h1 h2
    unfold contactsDecode
    rw [hsplit]
    exact decodeLoop_first_success false _ attempt l1 enc l2 t h1 h2
  · intro l1 enc l2 t hsplit h1 h2
    unfold rolodexDecode
    rw [hsplit]
    exact decodeLoop_first_success true _ attempt l1 enc l2 t h1 h2
  · intro h
    exact decodeLoop_all_caught false _ attempt contacts_encodings h
  · intro h
    exact decodeLoop_all_caught true _ attempt rolodex_encodings h

/-- C2 witness: the contacts loop succeeds on the second candidate when the
first fails to decode; the rolodex loop succeeds on its second candidate
past a parse failure, and fails with the fixed `ValueError` when every
candidate raises a parse error. -/
theorem C2_decode_fallback_witness :
    contactsDecode (fun enc => if enc = "latin-1" then .ok [] else .unicodeDecodeError)
      = .ok []
    ∧ rolodexDecode (fun enc => if enc = "utf-8" then .ok [] else .parserError)
      = .ok []
    ∧ rolodexDecode (fun _ => .parserError)
      = .error (.valueError "Could not decode or parse Rolodex file.") := by
  refine ⟨?_, ?_, ?_⟩
  · exact (C2_decode_fallback _).2.2.1 ["utf-8"] "latin-1" ["iso-8859-1", "cp1252"] []
      rfl
      (fun e he => by
        rw [List.mem_singleton] at he
        subst he
        exact Or.inl (by decide))
      (by decide)
  · exact (C2_decode_fallback _).2.2.2.1 ["utf-16"] "utf-8" ["latin-1"] []
      rfl
      (fun e he => by
        rw [List.mem_singleton] at he
        subst he
        exact Or.inr ⟨rfl, by decide⟩)
      (by decide)
  · exact (C2_decode_fallback _).2.2.2.2.2 (fun e he => Or.inr ⟨rfl, rfl⟩)

/-- C3: for every row whose first-column cell is
`=HYPERLINK("http://x/y";"Label")`, the transform (on a dataset whose
column names are those of a decoded CSV: the first column's name distinct
from the rest and from "Documentation Link") sets that row's first-column
cell to `Label` and that row's "Documentation Link" cell to `http://x/y`. -/
theorem C3_rolodex_hyperlink_roundtrip (first_col : String) (cs : List Cell)
    (rest : Table) (i : Nat)
    (hfr : ∀ c ∈ rest, c.1 ≠ first_col)
    (hdl : first_col ≠ "Documentation Link")
    (hcell : cs[i]? = some (.str "=HYPERLINK(\"http://x/y\";\"Label\")")) :
    ((rolodexTransform ((first_col, cs) :: rest))[0]?).map Prod.fst = some first_col
    ∧ ((rolodexTransform ((first_col, cs) :: rest))[0]?).bind (fun c => c.2[i]?)
        = some (.str "Label")
    ∧ ((rolodexTransform ((first_col, cs) :: rest))[1]?).map Prod.fst
        = some "Documentation Link"
    ∧ ((rolodexTransform ((first_col, cs) :: rest))[1]?).bind (fun c => c.2[i]?)
        = some (.str "http://x/y") := by
  rw [rolodexTransform_shape first_col cs rest hfr hdl]
  have hf : (cs.map extract_friendly)[i]? = some (Cell.str "Label") := by
    rw [List.getElem?_map, hcell]
    decide
  have hlk : (cs.map extract_link)[i]? = some (Cell.str "http://x/y") := by
    rw [List.getElem?_map, hcell]
    decide
  exact ⟨by simp, by simp [hf], by simp, by simp [hlk]⟩

/-- C3 witness: a one-column rolodex holding exactly the formula cell. -/
theorem C3_rolodex_hyperlink_roundtrip_witness :
    ((rolodexTransform [("Name", [Cell.str "=HYPERLINK(\"http://x/y\";\"Label\")"])])[0]?).bind
        (fun c => c.2[0]?) = some (.str "Label")
    ∧ ((rolodexTransform [("Name", [Cell.str "=HYPERLINK(\"http://x/y\";\"Label\")"])])[1]?).bind
        (fun c => c.2[0]?) = some (.str "http://x/y") := by
  have h := C3_rolodex_hyperlink_roundtrip "Name"
    [Cell.str "=HYPERLINK(\"http://x/y\";\"Label\")"] [] 0
    (by simp) (by decide) rfl
  exact ⟨h.2.1, h.2.2.2⟩

/-- C4 counterexample: the plain string cell `say "hi" now` does not start
with `=HYPERLINK` (case-insensitively), yet the transform produces `hi` —
the cell's first quoted substring — as its "Documentation Link" value, not
the empty string. -/
theorem C4_counterexample :
    pyStartsWithUpper "=HYPERLINK" ("say \"hi\" now").data = false
    ∧ rolodexTransform [("C", [Cell.str "say \"hi\" now"])]
        = [("C", [Cell.str "say \"hi\" now"]),
           ("Documentation Link", [Cell.str "hi"])]
    ∧ Cell.str "hi" ≠ Cell.str "" := by
  refine ⟨by decide, by decide, by decide⟩

/-- C4 (amended): for every string cell in the first column that does not
start with the `=HYPERLINK` prefix (case-insensitive), the transform leaves
that cell unchanged and produces as the "Documentation Link" value the
cell's first double-quoted substring (stripped) — the empty string when the
cell has no pair of double quotes. -/
theorem C4_nonformula_unchanged (first_col : String) (cs : List Cell)
    (rest : Table) (i : Nat) (s : String)
    (hfr : ∀ c ∈ rest, c.1 ≠ first_col)
    (hdl : first_col ≠ "Documentation Link")
    (hcell : cs[i]? = some (.str s))
    (hpre : pyStartsWithUpper "=HYPERLINK" s.data = false) :
    ((rolodexTransform ((first_col, cs) :: rest))[0]?).bind (fun c => c.2[i]?)
      = some (.str s)
    ∧ ((rolodexTransform ((first_col, cs) :: rest))[1]?).map Prod.fst
        = some "Documentation Link"
    ∧ ((rolodexTransform ((first_col, cs) :: rest))[1]?).bind (fun c => c.2[i]?)
        = some (.str (firstQuoted s.data).asString) := by
  rw [rolodexTransform_shape first_col cs rest hfr hdl]
  have hf : (cs.map extract_friendly)[i]? = some (Cell.str s) := by
    rw [List.getElem?_map, hcell, Option.map_some']
    have hunch : extract_friendly (.str s) = .str s := by
      simp [extract_friendly, hpre]
    rw [hunch]
  have hlk : (cs.map extract_link)[i]? = some (Cell.str (firstQuoted s.data).asString) := by
    rw [List.getElem?_map, hcell, Option.map_some', extract_link_eq_firstQuoted]
  exact ⟨by simp [hf], by simp, by simp [hlk]⟩

/-- C4 witness: a quote-free plain cell passes through unchanged with an
empty "Documentation Link" value. -/
theorem C4_nonformula_unchanged_witness :
    ((rolodexTransform [("C", [Cell.str "plain"])])[0]?).bind (fun c => c.2[0]?)
      = some (.str "plain")
    ∧ ((rolodexTransform [("C", [Cell.str "plain"])])[1]?).bind (fun c => c.2[0]?)
      = some (.str "") := by
  have h := C4_nonformula_unchanged "C" [Cell.str "plain"] [] 0 "plain"
    (by simp) (by decide) rfl (by decide)
  exact ⟨h.1, h.2.2.trans (by decide)⟩

/-- C10: on any dataset whose column names are those of a decoded CSV (the
first column's name distinct from the rest and no column named
"Documentation Link"), the transform changes only the first column's
cells, inserts the new "Documentation Link" column at position 1, keeps
every other column's name and cells, adds exactly one column, and
preserves equal column lengths and the row count. -/
theorem C10_rolodex_frame (first_col : String) (cs : List Cell) (rest : Table)
    (hfr : ∀ c ∈ rest, c.1 ≠ first_col)
    (hdl : ∀ c ∈ (first_col, cs) :: rest, c.1 ≠ "Documentation Link") :
    rolodexTransform ((first_col, cs) :: rest)
      = (first_col, cs.map extract_friendly)
        :: ("Documentation Link", cs.map extract_link) :: rest
    ∧ (rolodexTransform ((first_col, cs) :: rest)).length
        = ((first_col, cs) :: rest).length + 1
    ∧ (cs.map extract_friendly).length = cs.length
    ∧ (cs.map extract_link).length = cs.length
    ∧ ∀ L, (∀ c ∈ (first_col, cs) :: rest, c.2.length = L) →
        ∀ c ∈ rolodexTransform ((first_col, cs) :: rest), c.2.length = L := by
  have hdl1 : first_col ≠ "Documentation Link" := hdl _ (List.mem_cons_self _ _)
  have hshape := rolodexTransform_shape first_col cs rest hfr hdl1
  refine ⟨hshape, by rw [hshape]; rfl, by simp, by simp, ?_⟩
  intro L hL c hc
  rw [hshape] at hc
  have hcs : cs.length = L := by
    simpa using hL (first_col, cs) (List.mem_cons_self _ _)
  rcases List.mem_cons.mp hc with rfl | hc2
  · simpa using hcs
  · rcases List.mem_cons.mp hc2 with rfl | hc3
    · simpa using hcs
    · exact hL c (List.mem_cons_of_mem _ hc3)

/-- C10 witness: a two-column rolodex with a string row and a non-string
row. -/
theorem C10_rolodex_frame_witness :
    rolodexTransform [("A", [Cell.str "x"]), ("B", [Cell.na])]
      = [("A", [Cell.str "x"]), ("Documentation Link", [Cell.str ""]),
         ("B", [Cell.na])]
    ∧ (rolodexTransform [("A", [Cell.str "x"]), ("B", [Cell.na])]).length = 3 := by
  have h := C10_rolodex_frame "A" [Cell.str "x"] [("B", [Cell.na])]
    (by decide) (by decide)
  exact ⟨h.1.trans (by decide), h.2.1⟩

end S3Updator
